import Mathlib

/-!
Formal model of the barcelona-water-flow risk-scoring pipeline and of its
map/dashboard front-end.

The repository documents a Stage 4 risk-probability engine
(`data/stage4_risk_probabilities/README.md` and the subcounting-detection
module description): peer-normalised consumption series, three subcounting
indicators, population min-max normalisation, and an independent-events
combination of the cluster-based risk with the subcounting signal.  The
front-end (`src/components/WaterMeterMap.tsx`, `src/pages/Index.tsx`) loads
per-meter risk records from GeoJSON, buckets them into statuses and derives
alarms for the twenty highest-risk meters.

All numeric quantities are modelled over `ℚ`.  Definitions for the numeric
pipeline carry doc comments stating which part of the specification they
model (the Python sources of the pipeline are not part of the checked tree,
only their documentation is); definitions for the front-end are direct
translations of the TypeScript source.
-/

namespace WaterFlow

/-! ## Definitions -/

/-! ### Generic list helpers -/

/-- Minimum of a list of rationals (0 for the empty list, which the pipeline
never queries). -/
def listMin : List ℚ → ℚ
  | [] => 0
  | [x] => x
  | x :: y :: ys => min x (listMin (y :: ys))

/-- Maximum of a list of rationals (0 for the empty list, which the pipeline
never queries). -/
def listMax : List ℚ → ℚ
  | [] => 0
  | [x] => x
  | x :: y :: ys => max x (listMax (y :: ys))

/-- Arithmetic mean of a list of rationals (0 for the empty list). -/
def meanR (xs : List ℚ) : ℚ :=
  if xs.length = 0 then 0 else xs.sum / (xs.length : ℚ)

/-! ### Population min-max normalisation

Modelled from the spec: every population-wide rescaling in the pipeline
(SubcountingScorer step 3, AnomalyScorer, DegradationScorer, RiskCombiner
step 1) is the min-max map `(x - min) / (max - min)`, with the degenerate
case `max = min` mapped to 0 for every member. -/

/-- Modelled from the spec: population min-max normalisation of `x` against
the raw values `xs`; when all raw values coincide the normalised score
defaults to 0. -/
def minmaxNorm (xs : List ℚ) (x : ℚ) : ℚ :=
  let mn := listMin xs
  let mx := listMax xs
  if mx - mn = 0 then 0 else (x - mn) / (mx - mn)

/-! ### Risk combiner (Stage 4, Option A)

Modelled from the spec: the risk-scoring module of
`stage4_risk_probabilities` is described by its README and §4.7 of the
design document; the combination formulas below follow those words. -/

/-- Modelled from the spec: subcounting contribution
`p_sub = gamma * subcount_score`. -/
def p_sub (gamma subcount_score : ℚ) : ℚ := gamma * subcount_score

/-- Modelled from the spec: Option A independent-events combination
`p_final = 1 - (1 - p_cluster) * (1 - p_sub)`. -/
def p_final (p_cluster ps : ℚ) : ℚ := 1 - (1 - p_cluster) * (1 - ps)

/-- Modelled from the spec: `risk_percent = 100 * p_final`. -/
def riskPercentOf (p_cluster gamma subcount_score : ℚ) : ℚ :=
  100 * p_final p_cluster (p_sub gamma subcount_score)

/-- Modelled from the spec: `risk_percent_base = 100 * p_cluster`. -/
def riskPercentBaseOf (p_cluster : ℚ) : ℚ := 100 * p_cluster

/-! ### The Stage 4 output table

Modelled from the spec: the missing risk-scoring pipeline.  Each meter
enters with its latent-space distance to its cluster centroid, the raw
degradation index `D_k` of its cluster, and its raw subcounting score; the
pipeline min-max normalises distances, cluster degradations (across the
cluster list) and subcounting raw scores, blends anomaly and degradation
into the base risk, min-max normalises that into `p_cluster`, and combines
with the subcounting signal via Option A. -/

/-- Per-meter input to the Stage 4 risk scoring: latent distance to the
cluster centroid, the raw degradation index of the meter's cluster, and the
raw subcounting score. -/
structure MeterInput where
  id : Nat
  dist : ℚ
  degRaw : ℚ
  subRaw : ℚ
deriving DecidableEq, Repr

/-- One row of the meter failure-risk table. -/
structure RiskRecord where
  id : Nat
  anomaly_score : ℚ
  cluster_degradation : ℚ
  subcount_score : ℚ
  risk_percent_base : ℚ
  risk_percent : ℚ
deriving DecidableEq, Repr

instance : Inhabited RiskRecord :=
  ⟨{ id := 0, anomaly_score := 0, cluster_degradation := 0, subcount_score := 0,
     risk_percent_base := 0, risk_percent := 0 }⟩

/-- Modelled from the spec: the raw base risk
`R_raw = w1 * anomaly_score + w2 * cluster_degradation` of one meter. -/
def baseRawOf (w1 w2 : ℚ) (dists clusterD : List ℚ) (m : MeterInput) : ℚ :=
  w1 * minmaxNorm dists m.dist + w2 * minmaxNorm clusterD m.degRaw

/-- Modelled from the spec: the full output row for one meter, given the
population lists used by the four min-max normalisations. -/
def recordOf (w1 w2 gamma : ℚ) (dists clusterD subRaws baseRaws : List ℚ)
    (m : MeterInput) : RiskRecord where
  id := m.id
  anomaly_score := minmaxNorm dists m.dist
  cluster_degradation := minmaxNorm clusterD m.degRaw
  subcount_score := minmaxNorm subRaws m.subRaw
  risk_percent_base :=
    riskPercentBaseOf (minmaxNorm baseRaws (baseRawOf w1 w2 dists clusterD m))
  risk_percent :=
    riskPercentOf (minmaxNorm baseRaws (baseRawOf w1 w2 dists clusterD m)) gamma
      (minmaxNorm subRaws m.subRaw)

/-- Modelled from the spec: the Stage 4 pipeline producing one `RiskRecord`
per meter.  `clusterD` is the list of raw degradation indices of the
clusters, against which each meter's cluster value is normalised. -/
def computeRiskRecords (w1 w2 gamma : ℚ) (clusterD : List ℚ)
    (meters : List MeterInput) : List RiskRecord :=
  meters.map
    (recordOf w1 w2 gamma (meters.map MeterInput.dist) clusterD
      (meters.map MeterInput.subRaw)
      (meters.map (baseRawOf w1 w2 (meters.map MeterInput.dist) clusterD)))

/-! ### Peer normalisation (PeerNormalizer)

Modelled from the spec: the peer-normalisation helper of the subcounting
module computes, per period, the median aggregated volume over all relevant
meters and divides each meter's volume by `peer_median + eps`. -/

/-- Median of a list of rationals: middle element of the ascending sort, or
the average of the two middle elements for even length (0 for the empty
list). -/
def medianR (xs : List ℚ) : ℚ :=
  if (List.insertionSort (· ≤ ·) xs).length = 0 then 0
  else if (List.insertionSort (· ≤ ·) xs).length % 2 = 1 then
    (List.insertionSort (· ≤ ·) xs).getD ((List.insertionSort (· ≤ ·) xs).length / 2) 0
  else
    ((List.insertionSort (· ≤ ·) xs).getD ((List.insertionSort (· ≤ ·) xs).length / 2 - 1) 0 +
      (List.insertionSort (· ≤ ·) xs).getD ((List.insertionSort (· ≤ ·) xs).length / 2) 0) / 2

/-- Modelled from the spec: the peer-normalised consumption
`x_norm = consumo / (peer_median + eps)` of one meter against the aggregated
volumes of all relevant meters in the same period. -/
def x_norm (eps : ℚ) (volumes : List ℚ) (v : ℚ) : ℚ :=
  v / (medianR volumes + eps)

/-! ### Subcounting indicators (SubcountingIndicatorSet, SubcountingScorer)

Modelled from the spec: the three per-meter indicators computed from the
peer-normalised series ordered by period, their piecewise-linear sub-score
maps, and the weighted combination with logical reinforcement. -/

/-- Time indices `t = 0, 1, ..., n - 1` as rationals. -/
def tsOf (n : Nat) : List ℚ := (List.range n).map (fun t : Nat => (t : ℚ))

/-- Modelled from the spec: ordinary least-squares slope of the series
against the period index; 0 when the denominator degenerates (fewer than
two distinct time points). -/
def olsSlope (xs : List ℚ) : ℚ :=
  if (xs.length : ℚ) * ((tsOf xs.length).map (fun t => t * t)).sum -
      (tsOf xs.length).sum * (tsOf xs.length).sum = 0 then 0
  else ((xs.length : ℚ) * (((tsOf xs.length).zip xs).map (fun p => p.1 * p.2)).sum -
      (tsOf xs.length).sum * xs.sum) /
    ((xs.length : ℚ) * ((tsOf xs.length).map (fun t => t * t)).sum -
      (tsOf xs.length).sum * (tsOf xs.length).sum)

/-- Modelled from the spec: long-term drop ratio `R` between the mean of the
last `recentW` values and the mean of the preceding `baseW` values; neutral
value 1 when there are too few periods or the baseline mean is 0. -/
def dropRatioOf (recentW baseW : Nat) (xs : List ℚ) : ℚ :=
  if xs.length < recentW + baseW then 1
  else if meanR ((xs.take (xs.length - recentW)).drop (xs.length - recentW - baseW)) = 0 then 1
  else meanR (xs.drop (xs.length - recentW)) /
    meanR ((xs.take (xs.length - recentW)).drop (xs.length - recentW - baseW))

/-- Modelled from the spec: map of the drop ratio to the sub-score `s_R`
(`R ≤ 0.5 → 1`, `R ≥ 0.8 → 0`, linear in between). -/
def ratioToScore (r : ℚ) : ℚ :=
  if r ≤ 1/2 then 1 else if r ≥ 4/5 then 0 else (4/5 - r) / (3/10)

/-- Modelled from the spec: the slope normalised by the median level of the
series; neutral 0 when the median level is 0. -/
def relSlopeOf (xs : List ℚ) : ℚ :=
  if medianR xs = 0 then 0 else olsSlope xs / medianR xs

/-- Modelled from the spec: map of the relative slope to `s_T`
(`rel ≥ 0 → 0`, `rel ≤ -0.05 → 1`, linear in between). -/
def slopeToScore (rel : ℚ) : ℚ :=
  if 0 ≤ rel then 0 else if rel ≤ -(1/20) then 1 else -rel / (1/20)

/-- Modelled from the spec: slope-change ratio `delta_s` between the slopes
of the second and first half of the series (floor split); neutral 1 when
the first-half slope is negligible (within `tol`). -/
def slopeChangeOf (tol : ℚ) (xs : List ℚ) : ℚ :=
  if |olsSlope (xs.take (xs.length / 2))| ≤ tol then 1
  else olsSlope (xs.drop (xs.length / 2)) / olsSlope (xs.take (xs.length / 2))

/-- Modelled from the spec: map of `delta_s` to `s_delta`
(`delta_s ≤ 0.5 → 1`, `delta_s ≥ 0.8 → 0`, linear in between). -/
def slopeChangeToScore (d : ℚ) : ℚ :=
  if d ≤ 1/2 then 1 else if d ≥ 4/5 then 0 else (4/5 - d) / (3/10)

/-- Modelled from the spec: number of strong indicators (value above 0.7). -/
def strongCount (sR sT sD : ℚ) : Nat :=
  (if sR > 7/10 then 1 else 0) + (if sT > 7/10 then 1 else 0) +
    (if sD > 7/10 then 1 else 0)

/-- Modelled from the spec: weighted combination of the three sub-scores,
floored at 0.7 when at least two indicators are strong. -/
def subcountRawOf (wr wt ws sR sT sD : ℚ) : ℚ :=
  if 2 ≤ strongCount sR sT sD then max (wr * sR + wt * sT + ws * sD) (7/10)
  else wr * sR + wt * sT + ws * sD

/-- One row of the per-meter subcounting metrics table. -/
structure IndicatorMetrics where
  R : ℚ
  slope : ℚ
  delta_s : ℚ
  s_R : ℚ
  s_T : ℚ
  s_delta : ℚ
  subcount_score_raw : ℚ
deriving DecidableEq, Repr

/-- Modelled from the spec: the per-meter subcounting metrics computed from
the peer-normalised series. -/
def meterMetrics (recentW baseW : Nat) (tol wr wt ws : ℚ) (xs : List ℚ) :
    IndicatorMetrics where
  R := dropRatioOf recentW baseW xs
  slope := olsSlope xs
  delta_s := slopeChangeOf tol xs
  s_R := ratioToScore (dropRatioOf recentW baseW xs)
  s_T := slopeToScore (relSlopeOf xs)
  s_delta := slopeChangeToScore (slopeChangeOf tol xs)
  subcount_score_raw :=
    subcountRawOf wr wt ws (ratioToScore (dropRatioOf recentW baseW xs))
      (slopeToScore (relSlopeOf xs)) (slopeChangeToScore (slopeChangeOf tol xs))

/-- Modelled from the spec: the population-wide min-max normalisation step
of SubcountingScorer, assigning every meter its normalised score. -/
def normalizeScores (raws : List ℚ) : List ℚ := raws.map (minmaxNorm raws)

/-! ### Front-end: status bucketing and GeoJSON loading

Translated from the TypeScript source `src/components/WaterMeterMap.tsx`
(the `loadData` callback) and `src/pages/Index.tsx` (`generateAlarms` in the
insights sheet). -/

/-- Meter status as displayed by the map UI. -/
inductive Status
  | normal
  | warning
  | alert
deriving DecidableEq, Repr

/-- Status bucketing of `loadData` in `WaterMeterMap.tsx`:
`risk >= 80 ? 'alert' : risk >= 50 ? 'warning' : 'normal'`. -/
def statusOfRisk (risk : ℚ) : Status :=
  if 80 ≤ risk then Status.alert
  else if 50 ≤ risk then Status.warning
  else Status.normal

/-- JavaScript `x || d` for an optional numeric property: `undefined`,
`null` and `0` are falsy and yield the default. -/
def jsOrQ (x : Option ℚ) (d : ℚ) : ℚ :=
  match x with
  | none => d
  | some v => if v = 0 then d else v

/-- JavaScript `x || d` for an optional integer property. -/
def jsOrZ (x : Option Int) (d : Int) : Int :=
  match x with
  | none => d
  | some v => if v = 0 then d else v

/-- JavaScript `x || d` for an optional string property: `undefined`,
`null` and the empty string are falsy and yield the default. -/
def jsOrStr (x : Option String) (d : String) : String :=
  match x with
  | none => d
  | some v => if v = "" then d else v

/-- Geometry type tag of a GeoJSON feature. -/
inductive GeomType
  | point
  | polygon
  | other
deriving DecidableEq, Repr

/-- The meter-relevant properties of a GeoJSON feature; `none` models a
missing or null JSON property, and the whole object may be null. -/
structure FeatureProps where
  id : Option String
  risk_percent : Option ℚ
  cluster_id : Option Int
  seccio_censal : Option String
deriving DecidableEq, Repr

/-- A GeoJSON feature of the water-meters file. -/
structure Feature where
  geomType : GeomType
  coordinates : ℚ × ℚ
  props : Option FeatureProps
deriving DecidableEq, Repr

/-- The `WaterMeter` interface of the front-end; `name` and
`predictedFailureRisk` are the optional legacy fields used by
`Index.tsx`. -/
structure WaterMeter where
  id : String
  coordinates : ℚ × ℚ
  status : Status
  risk_percent : ℚ
  cluster_id : Int
  seccio_censal : Option String
  name : Option String
  predictedFailureRisk : Option ℚ
deriving DecidableEq, Repr

/-- Translation of the per-feature construction in `loadData`
(`WaterMeterMap.tsx`): `const risk = props?.risk_percent || 0`, the status
ternary, and the defaulted remaining properties. -/
def meterOfFeature (f : Feature) : WaterMeter where
  id := jsOrStr (f.props.bind FeatureProps.id) ""
  coordinates := f.coordinates
  status := statusOfRisk (jsOrQ (f.props.bind FeatureProps.risk_percent) 0)
  risk_percent := jsOrQ (f.props.bind FeatureProps.risk_percent) 0
  cluster_id := jsOrZ (f.props.bind FeatureProps.cluster_id) 0
  seccio_censal := f.props.bind FeatureProps.seccio_censal
  name := none
  predictedFailureRisk := none

/-- Translation of `loadData`: keep exactly the `Point` features and build a
`WaterMeter` from each. -/
def loadMeters (features : List Feature) : List WaterMeter :=
  (features.filter (fun f => f.geomType == GeomType.point)).map meterOfFeature

/-! ### Front-end: top-20 alarm generation (`generateAlarms`, `Index.tsx`) -/

/-- The JS-truthy risk of a meter in `generateAlarms`:
`meter.risk_percent || meter.predictedFailureRisk || 0`. -/
def jsRiskOf (m : WaterMeter) : ℚ :=
  jsOrQ (some m.risk_percent) (jsOrQ m.predictedFailureRisk 0)

instance : DecidableRel (fun a b : WaterMeter => b.risk_percent ≤ a.risk_percent) :=
  fun a b => inferInstanceAs (Decidable (b.risk_percent ≤ a.risk_percent))

instance : IsTotal WaterMeter (fun a b => b.risk_percent ≤ a.risk_percent) :=
  ⟨fun a b => le_total b.risk_percent a.risk_percent⟩

instance : IsTrans WaterMeter (fun a b => b.risk_percent ≤ a.risk_percent) :=
  ⟨fun _ _ _ hab hbc => le_trans hbc hab⟩

/-- Translation of the sort in `generateAlarms`:
`[...meters].sort((a, b) => (b.risk_percent || 0) - (a.risk_percent || 0))`,
i.e. a stable sort by `risk_percent` descending (`x || 0` is numerically the
identity). -/
def sortMetersByRiskDesc (ms : List WaterMeter) : List WaterMeter :=
  List.insertionSort (fun a b => b.risk_percent ≤ a.risk_percent) ms

/-- One alarm of the insights sheet (the fields the claims speak about). -/
structure Alarm where
  id : String
  meterId : String
  meterName : String
  alarmType : String
  severity : Status
deriving DecidableEq, Repr

/-- Translation of the per-meter alarm construction in `generateAlarms`:
every branch (index 0, index 1, all others) sets
`severity: risk >= 80 ? 'alert' : 'warning'`; only the alarm type differs
between the branches. -/
def alarmOf (i : Nat) (m : WaterMeter) : Alarm where
  id := "alarm-" ++ m.id
  meterId := m.id
  meterName := jsOrStr m.name ("Meter " ++ m.id)
  alarmType :=
    if i = 0 then "high_consumption"
    else if i = 1 then "zero_consumption"
    else ["anomaly", "spike", "high_consumption"].getD (i % 3) "anomaly"
  severity := if 80 ≤ jsRiskOf m then Status.alert else Status.warning

/-- The indexed `forEach` of `generateAlarms`, producing one alarm per
meter. -/
def alarmsFrom (i : Nat) : List WaterMeter → List Alarm
  | [] => []
  | m :: ms => alarmOf i m :: alarmsFrom (i + 1) ms

/-- Translation of `generateAlarms`: sort by risk descending, take the top
20, and build one alarm per meter. -/
def generateAlarms (meters : List WaterMeter) : List Alarm :=
  alarmsFrom 0 ((sortMetersByRiskDesc meters).take 20)

/-- Modelled from the spec: the final risk table sorted by `risk_percent`
descending, as the Stage 4 README states for the output file. -/
def sortRecordsByRiskDesc (rs : List RiskRecord) : List RiskRecord :=
  List.insertionSort (fun a b => b.risk_percent ≤ a.risk_percent) rs

instance : DecidableRel (fun a b : RiskRecord => b.risk_percent ≤ a.risk_percent) :=
  fun a b => inferInstanceAs (Decidable (b.risk_percent ≤ a.risk_percent))

instance : IsTotal RiskRecord (fun a b => b.risk_percent ≤ a.risk_percent) :=
  ⟨fun a b => le_total b.risk_percent a.risk_percent⟩

instance : IsTrans RiskRecord (fun a b => b.risk_percent ≤ a.risk_percent) :=
  ⟨fun _ _ _ hab hbc => le_trans hbc hab⟩

/-! ## Theorems -/

/-! ### Helper lemmas on the list helpers -/

theorem listMin_le_of_mem : ∀ {l : List ℚ} {x : ℚ}, x ∈ l → listMin l ≤ x
  | [x], y, h => by
    simp only [List.mem_singleton] at h
    simp [listMin, h]
  | x :: y :: ys, z, h => by
    rcases List.mem_cons.mp h with rfl | h
    · exact min_le_left _ _
    · exact le_trans (min_le_right _ _) (listMin_le_of_mem h)

theorem le_listMax_of_mem : ∀ {l : List ℚ} {x : ℚ}, x ∈ l → x ≤ listMax l
  | [x], y, h => by
    simp only [List.mem_singleton] at h
    simp [listMax, h]
  | x :: y :: ys, z, h => by
    rcases List.mem_cons.mp h with rfl | h
    · exact le_max_left _ _
    · exact le_trans (le_listMax_of_mem h) (le_max_right _ _)

theorem listMin_eq_of_const : ∀ {l : List ℚ} {c : ℚ}, l ≠ [] → (∀ x ∈ l, x = c) →
    listMin l = c
  | [x], c, _, h => by simp [listMin, h x (by simp)]
  | x :: y :: ys, c, _, h => by
    have hx : x = c := h x (by simp)
    have hrest : listMin (y :: ys) = c :=
      listMin_eq_of_const (by simp) (fun z hz => h z (List.mem_cons_of_mem _ hz))
    simp [listMin, hx, hrest]

theorem listMax_eq_of_const : ∀ {l : List ℚ} {c : ℚ}, l ≠ [] → (∀ x ∈ l, x = c) →
    listMax l = c
  | [x], c, _, h => by simp [listMax, h x (by simp)]
  | x :: y :: ys, c, _, h => by
    have hx : x = c := h x (by simp)
    have hrest : listMax (y :: ys) = c :=
      listMax_eq_of_const (by simp) (fun z hz => h z (List.mem_cons_of_mem _ hz))
    simp [listMax, hx, hrest]

theorem meanR_replicate (n : Nat) (k : ℚ) (hn : n ≠ 0) :
    meanR (List.replicate n k) = k := by
  have hlen : (List.replicate n k).length = n := List.length_replicate n k
  have hsum : (List.replicate n k).sum = n • k := List.sum_replicate n k
  unfold meanR
  rw [hlen, hsum, if_neg hn, nsmul_eq_mul]
  have hcast : (n : ℚ) ≠ 0 := Nat.cast_ne_zero.mpr hn
  field_simp

theorem minmaxNorm_nonneg {xs : List ℚ} {x : ℚ} (hx : x ∈ xs) :
    0 ≤ minmaxNorm xs x := by
  unfold minmaxNorm
  by_cases hdeg : listMax xs - listMin xs = 0
  · simp [hdeg]
  · have h1 : listMin xs ≤ x := listMin_le_of_mem hx
    have h2 : x ≤ listMax xs := le_listMax_of_mem hx
    have hpos : 0 < listMax xs - listMin xs := by
      rcases lt_or_eq_of_le (le_trans h1 h2) with h | h
      · linarith
      · exact absurd (by linarith) hdeg
    simp only [hdeg, if_false]
    exact div_nonneg (by linarith) (le_of_lt hpos)

theorem minmaxNorm_le_one {xs : List ℚ} {x : ℚ} (hx : x ∈ xs) :
    minmaxNorm xs x ≤ 1 := by
  unfold minmaxNorm
  by_cases hdeg : listMax xs - listMin xs = 0
  · simp [hdeg]
  · have h1 : listMin xs ≤ x := listMin_le_of_mem hx
    have h2 : x ≤ listMax xs := le_listMax_of_mem hx
    have hpos : 0 < listMax xs - listMin xs := by
      rcases lt_or_eq_of_le (le_trans h1 h2) with h | h
      · linarith
      · exact absurd (by linarith) hdeg
    simp only [hdeg, if_false]
    rw [div_le_one hpos]
    linarith

/-! ### Claim theorems -/

/-- C3: with `p_cluster = 0.2`, `subcount_score = 1.0` and `gamma = 0.8`, the
combiner computes `p_sub = 0.8`, `p_final = 1 - (1 - 0.2) * (1 - 0.8) = 0.84`,
`risk_percent = 84` and `risk_percent_base = 20`, in exact rational
arithmetic. -/
theorem scenarioC_exact_values :
    p_sub (8/10) 1 = 8/10 ∧
    p_final (2/10) (p_sub (8/10) 1) = 84/100 ∧
    riskPercentOf (2/10) (8/10) 1 = 84 ∧
    riskPercentBaseOf (2/10) = 20 := by
  refine ⟨?_, ?_, ?_, ?_⟩ <;> norm_num [p_sub, p_final, riskPercentOf, riskPercentBaseOf]

/-- C2: every output record of the Stage 4 pipeline has
`anomaly_score`, `cluster_degradation` and `subcount_score` in `[0, 1]` and
`risk_percent_base`, `risk_percent` in `[0, 100]`, provided
`gamma ∈ [0, 1]` and each meter's cluster degradation value is among the
cluster degradation population. -/
theorem output_scores_bounded (w1 w2 gamma : ℚ) (clusterD : List ℚ)
    (meters : List MeterInput)
    (hg0 : 0 ≤ gamma) (hg1 : gamma ≤ 1)
    (hdeg : ∀ m ∈ meters, m.degRaw ∈ clusterD) :
    ∀ r ∈ computeRiskRecords w1 w2 gamma clusterD meters,
      (0 ≤ r.anomaly_score ∧ r.anomaly_score ≤ 1) ∧
      (0 ≤ r.cluster_degradation ∧ r.cluster_degradation ≤ 1) ∧
      (0 ≤ r.subcount_score ∧ r.subcount_score ≤ 1) ∧
      (0 ≤ r.risk_percent_base ∧ r.risk_percent_base ≤ 100) ∧
      (0 ≤ r.risk_percent ∧ r.risk_percent ≤ 100) := by
  intro r hr
  rw [computeRiskRecords, List.mem_map] at hr
  obtain ⟨m, hm, rfl⟩ := hr
  have hdist : m.dist ∈ meters.map MeterInput.dist := List.mem_map_of_mem _ hm
  have hsub : m.subRaw ∈ meters.map MeterInput.subRaw := List.mem_map_of_mem _ hm
  have hbase : baseRawOf w1 w2 (meters.map MeterInput.dist) clusterD m
      ∈ meters.map (baseRawOf w1 w2 (meters.map MeterInput.dist) clusterD) :=
    List.mem_map_of_mem _ hm
  have hdm := hdeg m hm
  simp only [recordOf]
  set pc := minmaxNorm
    (meters.map (baseRawOf w1 w2 (meters.map MeterInput.dist) clusterD))
    (baseRawOf w1 w2 (meters.map MeterInput.dist) clusterD m) with hpc
  set s := minmaxNorm (meters.map MeterInput.subRaw) m.subRaw with hs
  have hpc0 : 0 ≤ pc := minmaxNorm_nonneg hbase
  have hpc1 : pc ≤ 1 := minmaxNorm_le_one hbase
  have hs0 : 0 ≤ s := minmaxNorm_nonneg hsub
  have hs1 : s ≤ 1 := minmaxNorm_le_one hsub
  have hq0 : 0 ≤ gamma * s := mul_nonneg hg0 hs0
  have hq1 : gamma * s ≤ 1 := mul_le_one₀ hg1 hs0 hs1
  have hprod0 : 0 ≤ (1 - pc) * (1 - gamma * s) :=
    mul_nonneg (by linarith) (by linarith)
  have hprod1 : (1 - pc) * (1 - gamma * s) ≤ 1 :=
    mul_le_one₀ (by linarith) (by linarith) (by linarith)
  refine ⟨⟨minmaxNorm_nonneg hdist, minmaxNorm_le_one hdist⟩,
    ⟨minmaxNorm_nonneg hdm, minmaxNorm_le_one hdm⟩,
    ⟨hs0, hs1⟩, ?_, ?_⟩
  · unfold riskPercentBaseOf
    constructor <;> linarith
  · unfold riskPercentOf p_final p_sub
    constructor <;> linarith

/-- C2 witness: the bound theorem applied to a concrete two-meter
population. -/
theorem output_scores_bounded_witness :
    (0 ≤ ((computeRiskRecords (1/2) (1/2) (8/10) [0, 1]
        [⟨1, 0, 0, 0⟩, ⟨2, 1, 1, 1⟩]).getD 0 default).anomaly_score ∧
      ((computeRiskRecords (1/2) (1/2) (8/10) [0, 1]
        [⟨1, 0, 0, 0⟩, ⟨2, 1, 1, 1⟩]).getD 0 default).anomaly_score ≤ 1) ∧
    (0 ≤ ((computeRiskRecords (1/2) (1/2) (8/10) [0, 1]
        [⟨1, 0, 0, 0⟩, ⟨2, 1, 1, 1⟩]).getD 0 default).cluster_degradation ∧
      ((computeRiskRecords (1/2) (1/2) (8/10) [0, 1]
        [⟨1, 0, 0, 0⟩, ⟨2, 1, 1, 1⟩]).getD 0 default).cluster_degradation ≤ 1) ∧
    (0 ≤ ((computeRiskRecords (1/2) (1/2) (8/10) [0, 1]
        [⟨1, 0, 0, 0⟩, ⟨2, 1, 1, 1⟩]).getD 0 default).subcount_score ∧
      ((computeRiskRecords (1/2) (1/2) (8/10) [0, 1]
        [⟨1, 0, 0, 0⟩, ⟨2, 1, 1, 1⟩]).getD 0 default).subcount_score ≤ 1) ∧
    (0 ≤ ((computeRiskRecords (1/2) (1/2) (8/10) [0, 1]
        [⟨1, 0, 0, 0⟩, ⟨2, 1, 1, 1⟩]).getD 0 default).risk_percent_base ∧
      ((computeRiskRecords (1/2) (1/2) (8/10) [0, 1]
        [⟨1, 0, 0, 0⟩, ⟨2, 1, 1, 1⟩]).getD 0 default).risk_percent_base ≤ 100) ∧
    (0 ≤ ((computeRiskRecords (1/2) (1/2) (8/10) [0, 1]
        [⟨1, 0, 0, 0⟩, ⟨2, 1, 1, 1⟩]).getD 0 default).risk_percent ∧
      ((computeRiskRecords (1/2) (1/2) (8/10) [0, 1]
        [⟨1, 0, 0, 0⟩, ⟨2, 1, 1, 1⟩]).getD 0 default).risk_percent ≤ 100) :=
  output_scores_bounded (1/2) (1/2) (8/10) [0, 1]
    [⟨1, 0, 0, 0⟩, ⟨2, 1, 1, 1⟩] (by norm_num) (by norm_num) (by simp)
    _ (by norm_num [computeRiskRecords, recordOf, baseRawOf, minmaxNorm, listMin, listMax, riskPercentOf, riskPercentBaseOf, p_final, p_sub, List.getD])

/-- C1 counterexample: in a two-meter population where the second meter
attains the population maximum of the raw base risk (so `p_cluster = 1`),
its `risk_percent` equals its `risk_percent_base` even though its
`subcount_score` is 1, refuting the claimed equivalence
`risk_percent = risk_percent_base ↔ subcount_score = 0`. -/
theorem combination_equality_cex :
    ((computeRiskRecords (1/2) (1/2) (8/10) [0, 1]
        [⟨1, 0, 0, 0⟩, ⟨2, 1, 1, 1⟩]).getD 1 default).risk_percent =
      ((computeRiskRecords (1/2) (1/2) (8/10) [0, 1]
        [⟨1, 0, 0, 0⟩, ⟨2, 1, 1, 1⟩]).getD 1 default).risk_percent_base ∧
    ((computeRiskRecords (1/2) (1/2) (8/10) [0, 1]
        [⟨1, 0, 0, 0⟩, ⟨2, 1, 1, 1⟩]).getD 1 default).subcount_score ≠ 0 := by
  norm_num [computeRiskRecords, recordOf, baseRawOf, minmaxNorm, listMin,
    listMax, riskPercentOf, riskPercentBaseOf, p_final, p_sub, List.getD]

/-- C1 (amended): for every meter in the output,
`risk_percent ≥ risk_percent_base`, and equality holds if and only if
`subcount_score = 0` or `risk_percent_base = 100` (that is, the meter
already sits at the population maximum `p_cluster = 1`); `gamma` is assumed
positive, as with the default 0.8. -/
theorem combination_monotone_amended (w1 w2 gamma : ℚ) (clusterD : List ℚ)
    (meters : List MeterInput) (hg : 0 < gamma) :
    ∀ r ∈ computeRiskRecords w1 w2 gamma clusterD meters,
      r.risk_percent_base ≤ r.risk_percent ∧
      (r.risk_percent = r.risk_percent_base ↔
        r.subcount_score = 0 ∨ r.risk_percent_base = 100) := by
  intro r hr
  rw [computeRiskRecords, List.mem_map] at hr
  obtain ⟨m, hm, rfl⟩ := hr
  have hsub : m.subRaw ∈ meters.map MeterInput.subRaw := List.mem_map_of_mem _ hm
  have hbase : baseRawOf w1 w2 (meters.map MeterInput.dist) clusterD m
      ∈ meters.map (baseRawOf w1 w2 (meters.map MeterInput.dist) clusterD) :=
    List.mem_map_of_mem _ hm
  simp only [recordOf]
  set pc := minmaxNorm
    (meters.map (baseRawOf w1 w2 (meters.map MeterInput.dist) clusterD))
    (baseRawOf w1 w2 (meters.map MeterInput.dist) clusterD m) with hpc
  set s := minmaxNorm (meters.map MeterInput.subRaw) m.subRaw with hs
  have hpc1 : pc ≤ 1 := minmaxNorm_le_one hbase
  have hs0 : 0 ≤ s := minmaxNorm_nonneg hsub
  have hslack : 0 ≤ (1 - pc) * (gamma * s) :=
    mul_nonneg (by linarith) (mul_nonneg hg.le hs0)
  unfold riskPercentOf riskPercentBaseOf p_final p_sub
  constructor
  · nlinarith [hslack]
  · constructor
    · intro h
      have hzero : (1 - pc) * (gamma * s) = 0 := by nlinarith [h]
      rcases mul_eq_zero.mp hzero with h1 | h2
      · right
        have : pc = 1 := by linarith
        rw [this]
        norm_num
      · rcases mul_eq_zero.mp h2 with hγ | hs'
        · exact absurd hγ (ne_of_gt hg)
        · exact Or.inl hs'
    · rintro (hs' | hb)
      · rw [hs']
        ring
      · have : pc = 1 := by linarith
        rw [this]
        ring

/-- C1 (amended) witness: the amended theorem applied to the first record of
a concrete two-meter population. -/
theorem combination_monotone_amended_witness :
    ((computeRiskRecords (1/2) (1/2) (8/10) [0, 1]
        [⟨1, 0, 0, 0⟩, ⟨2, 1, 1, 1⟩]).getD 0 default).risk_percent_base ≤
      ((computeRiskRecords (1/2) (1/2) (8/10) [0, 1]
        [⟨1, 0, 0, 0⟩, ⟨2, 1, 1, 1⟩]).getD 0 default).risk_percent ∧
    (((computeRiskRecords (1/2) (1/2) (8/10) [0, 1]
        [⟨1, 0, 0, 0⟩, ⟨2, 1, 1, 1⟩]).getD 0 default).risk_percent =
      ((computeRiskRecords (1/2) (1/2) (8/10) [0, 1]
        [⟨1, 0, 0, 0⟩, ⟨2, 1, 1, 1⟩]).getD 0 default).risk_percent_base ↔
      ((computeRiskRecords (1/2) (1/2) (8/10) [0, 1]
        [⟨1, 0, 0, 0⟩, ⟨2, 1, 1, 1⟩]).getD 0 default).subcount_score = 0 ∨
      ((computeRiskRecords (1/2) (1/2) (8/10) [0, 1]
        [⟨1, 0, 0, 0⟩, ⟨2, 1, 1, 1⟩]).getD 0 default).risk_percent_base = 100) :=
  combination_monotone_amended (1/2) (1/2) (8/10) [0, 1]
    [⟨1, 0, 0, 0⟩, ⟨2, 1, 1, 1⟩] (by norm_num) _ (by norm_num [computeRiskRecords, recordOf, baseRawOf, minmaxNorm, listMin, listMax, riskPercentOf, riskPercentBaseOf, p_final, p_sub, List.getD])

/-! ### Median scaling lemmas -/

theorem orderedInsert_map_mul {c : ℚ} (hc : 0 < c) (x : ℚ) :
    ∀ l : List ℚ, List.orderedInsert (· ≤ ·) (c * x) (l.map (fun y => c * y)) =
      (List.orderedInsert (· ≤ ·) x l).map (fun y => c * y)
  | [] => rfl
  | y :: ys => by
    by_cases h : x ≤ y
    · rw [List.map_cons, List.orderedInsert, if_pos ((mul_le_mul_left hc).mpr h),
        List.orderedInsert, if_pos h, List.map_cons, List.map_cons]
    · have h' : ¬ c * x ≤ c * y := fun hcc => h ((mul_le_mul_left hc).mp hcc)
      rw [List.map_cons, List.orderedInsert, if_neg h', List.orderedInsert, if_neg h,
        List.map_cons, orderedInsert_map_mul hc x ys]

theorem insertionSort_map_mul {c : ℚ} (hc : 0 < c) :
    ∀ l : List ℚ, List.insertionSort (· ≤ ·) (l.map (fun y => c * y)) =
      (List.insertionSort (· ≤ ·) l).map (fun y => c * y)
  | [] => rfl
  | x :: xs => by
    rw [List.map_cons, List.insertionSort, List.insertionSort,
      insertionSort_map_mul hc xs, orderedInsert_map_mul hc x]

theorem getD_map_mul (c : ℚ) (l : List ℚ) (i : Nat) :
    (l.map (fun y => c * y)).getD i 0 = c * l.getD i 0 := by
  calc (l.map (fun y => c * y)).getD i 0
      = (l.map (fun y => c * y)).getD i (c * 0) := by rw [mul_zero]
    _ = c * l.getD i 0 := List.getD_map _ _ _

theorem medianR_map_mul {c : ℚ} (hc : 0 < c) (l : List ℚ) :
    medianR (l.map (fun y => c * y)) = c * medianR l := by
  unfold medianR
  simp only [insertionSort_map_mul hc, List.length_map, getD_map_mul]
  by_cases h0 : (List.insertionSort (· ≤ ·) l).length = 0
  · rw [if_pos h0, if_pos h0, mul_zero]
  · rw [if_neg h0, if_neg h0]
    by_cases hodd : (List.insertionSort (· ≤ ·) l).length % 2 = 1
    · rw [if_pos hodd, if_pos hodd]
    · rw [if_neg hodd, if_neg hodd]
      ring

/-! ### Claim C4 -/

/-- C4 counterexample: with the fixed `eps = 1e-6 > 0`, scaling the single
meter of a period (volume 2) by `c = 2` changes its `x_norm` value
(`4 / (4 + eps) ≠ 2 / (2 + eps)`), refuting exact peer invariance. -/
theorem peer_invariance_cex :
    x_norm (1/1000000) (([2] : List ℚ).map (fun y => 2 * y)) (2 * 2) ≠
      x_norm (1/1000000) [2] 2 := by
  norm_num [x_norm, medianR, List.insertionSort, List.orderedInsert, List.getD]

/-- C4 (amended): with `eps > 0`, `c > 0` and a nonnegative peer median,
scaling every volume of the period by `c` maps `x_norm` from
`v / (median + eps)` to `c * v / (c * median + eps)`, and the value is
unchanged exactly when `v = 0` or `c = 1`; exact invariance for all meters
holds only in the limit `eps = 0`. -/
theorem peer_invariance_amended (eps c v : ℚ) (volumes : List ℚ)
    (heps : 0 < eps) (hc : 0 < c) (hm : 0 ≤ medianR volumes) :
    x_norm eps (volumes.map (fun y => c * y)) (c * v) = x_norm eps volumes v ↔
      v = 0 ∨ c = 1 := by
  unfold x_norm
  rw [medianR_map_mul hc]
  have hd1 : medianR volumes + eps ≠ 0 := by positivity
  have hd2 : c * medianR volumes + eps ≠ 0 := by positivity
  rw [div_eq_div_iff hd2 hd1]
  constructor
  · intro h
    have hkey : v * eps * (c - 1) = 0 := by linear_combination h
    rcases mul_eq_zero.mp hkey with h1 | h2
    · rcases mul_eq_zero.mp h1 with hv | he
      · exact Or.inl hv
      · exact absurd he heps.ne'
    · right
      linarith
  · rintro (rfl | rfl) <;> ring

/-- C4 (amended) witness: the amended equivalence applied to a concrete
period with volumes `[2, 4]`, `c = 2`, `v = 0`. -/
theorem peer_invariance_amended_witness :
    (x_norm (1/1000000) (([2, 4] : List ℚ).map (fun y => 2 * y)) (2 * 0) =
      x_norm (1/1000000) [2, 4] 0) ↔ (0 : ℚ) = 0 ∨ (2 : ℚ) = 1 :=
  peer_invariance_amended (1/1000000) 2 0 [2, 4] (by norm_num) (by norm_num)
    (by norm_num [medianR, List.insertionSort, List.orderedInsert, List.getD])

/-! ### Flat-series lemmas for the indicators -/

theorem zip_replicate_mul_sum (k : ℚ) :
    ∀ (ts : List ℚ) (n : Nat), ts.length = n →
      ((ts.zip (List.replicate n k)).map (fun p => p.1 * p.2)).sum = k * ts.sum
  | [], n, _ => by simp
  | t :: ts, n, h => by
    cases n with
    | zero => simp at h
    | succ m =>
      rw [List.replicate_succ, List.zip_cons_cons, List.map_cons, List.sum_cons,
        zip_replicate_mul_sum k ts m (by simpa using h), List.sum_cons]
      ring

theorem olsSlope_replicate (n : Nat) (k : ℚ) : olsSlope (List.replicate n k) = 0 := by
  unfold olsSlope
  simp only [List.length_replicate]
  have hlen : (tsOf n).length = n := by
    rw [tsOf, List.length_map, List.length_range]
  rw [zip_replicate_mul_sum k (tsOf n) n hlen, List.sum_replicate, nsmul_eq_mul]
  by_cases hden : (n : ℚ) * ((tsOf n).map (fun t => t * t)).sum -
      (tsOf n).sum * (tsOf n).sum = 0
  · rw [if_pos hden]
  · rw [if_neg hden]
    have hnum : (n : ℚ) * (k * (tsOf n).sum) - (tsOf n).sum * ((n : ℚ) * k) = 0 := by
      ring
    rw [hnum, zero_div]

theorem dropRatio_replicate (recentW baseW n : Nat) (k : ℚ) (hrw : 0 < recentW) :
    dropRatioOf recentW baseW (List.replicate n k) = 1 := by
  unfold dropRatioOf
  simp only [List.length_replicate]
  by_cases hlen : n < recentW + baseW
  · rw [if_pos hlen]
  · rw [if_neg hlen]
    have hbase : (List.take (n - recentW) (List.replicate n k)).drop
        (n - recentW - baseW) = List.replicate baseW k := by
      rw [List.take_replicate, List.drop_replicate]
      congr 1
      omega
    have hrec : (List.replicate n k).drop (n - recentW) = List.replicate recentW k := by
      rw [List.drop_replicate]
      congr 1
      omega
    rw [hbase, hrec]
    by_cases hb0 : baseW = 0
    · subst hb0
      simp [meanR]
    · rw [meanR_replicate baseW k hb0, meanR_replicate recentW k hrw.ne']
      by_cases hk : k = 0
      · rw [if_pos hk]
      · rw [if_neg hk, div_self hk]

theorem slopeChange_replicate (n : Nat) (k tol : ℚ) (htol : 0 ≤ tol) :
    slopeChangeOf tol (List.replicate n k) = 1 := by
  unfold slopeChangeOf
  simp only [List.length_replicate, List.take_replicate, List.drop_replicate,
    olsSlope_replicate, abs_zero]
  rw [if_pos htol]

theorem relSlope_replicate (n : Nat) (k : ℚ) : relSlopeOf (List.replicate n k) = 0 := by
  unfold relSlopeOf
  rw [olsSlope_replicate]
  by_cases hm : medianR (List.replicate n k) = 0
  · rw [if_pos hm]
  · rw [if_neg hm, zero_div]

/-- C5: a meter whose peer-normalised series is constant across all its
periods gets drop ratio `R = 1`, neutral slope change `delta_s = 1`,
sub-scores `s_R = s_T = s_delta = 0`, and hence `subcount_score_raw = 0`,
for any non-negative weights (the windows being positive as with the
defaults 6 and 12, the slope tolerance non-negative). -/
theorem flat_series_neutral (n recentW baseW : Nat) (k tol wr wt ws : ℚ)
    (hrw : 0 < recentW) (htol : 0 ≤ tol)
    (hwr : 0 ≤ wr) (hwt : 0 ≤ wt) (hws : 0 ≤ ws) :
    (meterMetrics recentW baseW tol wr wt ws (List.replicate n k)).R = 1 ∧
    (meterMetrics recentW baseW tol wr wt ws (List.replicate n k)).delta_s = 1 ∧
    (meterMetrics recentW baseW tol wr wt ws (List.replicate n k)).s_R = 0 ∧
    (meterMetrics recentW baseW tol wr wt ws (List.replicate n k)).s_T = 0 ∧
    (meterMetrics recentW baseW tol wr wt ws (List.replicate n k)).s_delta = 0 ∧
    (meterMetrics recentW baseW tol wr wt ws (List.replicate n k)).subcount_score_raw
      = 0 := by
  have hR := dropRatio_replicate recentW baseW n k hrw
  have hD := slopeChange_replicate n k tol htol
  have hT := relSlope_replicate n k
  refine ⟨?_, ?_, ?_, ?_, ?_, ?_⟩ <;>
    norm_num [meterMetrics, hR, hD, hT, ratioToScore, slopeToScore,
      slopeChangeToScore, subcountRawOf, strongCount]

/-- C5 witness: the flat-series theorem applied to 18 periods of constant
value 1 with the default windows and weights. -/
theorem flat_series_neutral_witness :
    (meterMetrics 6 12 0 (4/10) (3/10) (3/10) (List.replicate 18 1)).R = 1 ∧
    (meterMetrics 6 12 0 (4/10) (3/10) (3/10) (List.replicate 18 1)).delta_s = 1 ∧
    (meterMetrics 6 12 0 (4/10) (3/10) (3/10) (List.replicate 18 1)).s_R = 0 ∧
    (meterMetrics 6 12 0 (4/10) (3/10) (3/10) (List.replicate 18 1)).s_T = 0 ∧
    (meterMetrics 6 12 0 (4/10) (3/10) (3/10) (List.replicate 18 1)).s_delta = 0 ∧
    (meterMetrics 6 12 0 (4/10) (3/10) (3/10)
      (List.replicate 18 1)).subcount_score_raw = 0 :=
  flat_series_neutral 18 6 12 1 0 (4/10) (3/10) (3/10) (by norm_num) (by norm_num)
    (by norm_num) (by norm_num) (by norm_num)

/-- C6: when every meter's `subcount_score_raw` is identical, the
population-wide min-max normalisation assigns `subcount_score = 0` to every
meter; the function is total (no error) and the output has one score per
input meter. -/
theorem degenerate_normalization (raws : List ℚ) (c : ℚ)
    (hconst : ∀ x ∈ raws, x = c) :
    normalizeScores raws = List.replicate raws.length 0 := by
  refine List.eq_replicate_iff.mpr ⟨by simp [normalizeScores], ?_⟩
  intro b hb
  rw [normalizeScores, List.mem_map] at hb
  obtain ⟨x, hx, rfl⟩ := hb
  have hne : raws ≠ [] := List.ne_nil_of_mem hx
  unfold minmaxNorm
  rw [listMin_eq_of_const hne hconst, listMax_eq_of_const hne hconst]
  simp

/-- C6 witness: three meters with identical raw score 3 all get normalised
score 0. -/
theorem degenerate_normalization_witness :
    normalizeScores [3, 3, 3] = List.replicate ([3, 3, 3] : List ℚ).length 0 :=
  degenerate_normalization [3, 3, 3] 3 (by intro x hx; fin_cases hx <;> rfl)

/-! ### Claims C7, C9 (map loader) -/

/-- C7: the downstream status bucketing assigns `alert` exactly when
`risk_percent ≥ 80`, `warning` exactly when `50 ≤ risk_percent < 80`, and
`normal` exactly when `risk_percent < 50`. -/
theorem status_bucketing (risk : ℚ) :
    (statusOfRisk risk = Status.alert ↔ 80 ≤ risk) ∧
    (statusOfRisk risk = Status.warning ↔ 50 ≤ risk ∧ risk < 80) ∧
    (statusOfRisk risk = Status.normal ↔ risk < 50) := by
  unfold statusOfRisk
  by_cases h1 : 80 ≤ risk
  · rw [if_pos h1]
    refine ⟨⟨fun _ => h1, fun _ => rfl⟩, ⟨fun h => ?_, fun hw => ?_⟩,
      ⟨fun h => ?_, fun hn => ?_⟩⟩
    · exact absurd h (by simp)
    · exact absurd hw.2 (by linarith)
    · exact absurd h (by simp)
    · exact absurd hn (by linarith)
  · rw [if_neg h1]
    by_cases h2 : 50 ≤ risk
    · rw [if_pos h2]
      refine ⟨⟨fun h => absurd h (by simp), fun h => absurd h h1⟩,
        ⟨fun _ => ⟨h2, lt_of_not_le h1⟩, fun _ => rfl⟩,
        ⟨fun h => absurd h (by simp), fun hn => absurd h2 (by linarith)⟩⟩
    · rw [if_neg h2]
      refine ⟨⟨fun h => absurd h (by simp), fun h => absurd h h1⟩,
        ⟨fun h => absurd h (by simp), fun hw => absurd hw.1 h2⟩,
        ⟨fun _ => lt_of_not_le h2, fun _ => rfl⟩⟩

/-- C9: a `Point` feature whose `risk_percent` property is absent, null or 0
yields a meter with `risk_percent = 0` and status `normal`; the meter is
still included in the loaded list (no error), and the loader keeps exactly
the `Point` features. -/
theorem missing_risk_defaults (features : List Feature) (f : Feature)
    (hf : f ∈ features) (hpt : f.geomType = GeomType.point)
    (hrisk : f.props.bind FeatureProps.risk_percent = none ∨
      f.props.bind FeatureProps.risk_percent = some 0) :
    (meterOfFeature f).risk_percent = 0 ∧
    (meterOfFeature f).status = Status.normal ∧
    meterOfFeature f ∈ loadMeters features ∧
    (loadMeters features).length =
      (features.filter (fun g => g.geomType == GeomType.point)).length := by
  have hr : jsOrQ (f.props.bind FeatureProps.risk_percent) 0 = 0 := by
    rcases hrisk with h | h <;> rw [h] <;> simp [jsOrQ]
  refine ⟨?_, ?_, ?_, ?_⟩
  · simp [meterOfFeature, hr]
  · norm_num [meterOfFeature, hr, statusOfRisk]
  · rw [loadMeters]
    exact List.mem_map_of_mem _ (List.mem_filter.mpr ⟨hf, by simp [hpt]⟩)
  · rw [loadMeters, List.length_map]

/-- C9 witness: a concrete `Point` feature with a properties object whose
`risk_percent` is absent. -/
theorem missing_risk_defaults_witness :
    (meterOfFeature ⟨GeomType.point, (0, 0), some ⟨some "m2", none, some 3, none⟩⟩).risk_percent = 0 ∧
    (meterOfFeature ⟨GeomType.point, (0, 0), some ⟨some "m2", none, some 3, none⟩⟩).status = Status.normal ∧
    meterOfFeature ⟨GeomType.point, (0, 0), some ⟨some "m2", none, some 3, none⟩⟩ ∈
      loadMeters [⟨GeomType.point, (0, 0), some ⟨some "m2", none, some 3, none⟩⟩] ∧
    (loadMeters [⟨GeomType.point, (0, 0), some ⟨some "m2", none, some 3, none⟩⟩]).length =
      ([⟨GeomType.point, (0, 0), some ⟨some "m2", none, some 3, none⟩⟩].filter
        (fun g : Feature => g.geomType == GeomType.point)).length :=
  missing_risk_defaults [⟨GeomType.point, (0, 0), some ⟨some "m2", none, some 3, none⟩⟩]
    ⟨GeomType.point, (0, 0), some ⟨some "m2", none, some 3, none⟩⟩
    (by simp) rfl (Or.inl rfl)

/-! ### Claim C8 (risk table order) -/

/-- C8: the sorted risk table is a permutation of the records, is sorted by
`risk_percent` in descending order, and every record among the first 20 rows
has `risk_percent` at least that of every later record — so the first 20
rows are the 20 meters with the highest `risk_percent`. -/
theorem risk_table_sorted_top20 (rs : List RiskRecord) :
    List.Perm (sortRecordsByRiskDesc rs) rs ∧
    (sortRecordsByRiskDesc rs).Sorted (fun a b => b.risk_percent ≤ a.risk_percent) ∧
    ∀ a ∈ (sortRecordsByRiskDesc rs).take 20,
      ∀ b ∈ (sortRecordsByRiskDesc rs).drop 20, b.risk_percent ≤ a.risk_percent := by
  have hs : (sortRecordsByRiskDesc rs).Sorted
      (fun a b => b.risk_percent ≤ a.risk_percent) :=
    List.sorted_insertionSort _ rs
  exact ⟨List.perm_insertionSort _ rs, hs,
    fun a ha b hb => List.Sorted.rel_of_mem_take_of_mem_drop hs ha hb⟩

/-! ### Claim C10 (alarm severities) -/

theorem alarmsFrom_getElem (l : List WaterMeter) : ∀ (i j : Nat),
    (alarmsFrom i l)[j]? = (l[j]?).map (fun m => alarmOf (i + j) m) := by
  induction l with
  | nil => intro i j; simp [alarmsFrom]
  | cons m ms ih =>
    intro i j
    cases j with
    | zero => simp [alarmsFrom]
    | succ j' =>
      have heq : i + 1 + j' = i + (j' + 1) := by omega
      simp only [alarmsFrom, List.getElem?_cons_succ, ih (i + 1) j', heq]

theorem alarmsFrom_severity_ne_normal (l : List WaterMeter) : ∀ (i : Nat),
    ∀ a ∈ alarmsFrom i l, a.severity ≠ Status.normal := by
  induction l with
  | nil => intro i a ha; simp [alarmsFrom] at ha
  | cons m ms ih =>
    intro i a ha
    rcases List.mem_cons.mp ha with rfl | ha
    · show (alarmOf i m).severity ≠ Status.normal
      unfold alarmOf
      by_cases h : 80 ≤ jsRiskOf m <;> simp [h]
    · exact ih (i + 1) a ha

/-- C10: every alarm generated for the top-20 highest-risk meters has
severity `alert` exactly when the meter's (JS-truthy) risk is at least 80
and `warning` otherwise; severity `normal` is never produced, even for a
meter whose risk is below 50. -/
theorem alarms_top20_severity (meters : List WaterMeter) :
    (∀ a ∈ generateAlarms meters, a.severity ≠ Status.normal) ∧
    (∀ i m, ((sortMetersByRiskDesc meters).take 20)[i]? = some m →
      (generateAlarms meters)[i]? = some (alarmOf i m) ∧
      (alarmOf i m).severity =
        (if 80 ≤ jsRiskOf m then Status.alert else Status.warning)) := by
  constructor
  · intro a ha
    exact alarmsFrom_severity_ne_normal _ 0 a ha
  · intro i m hm
    refine ⟨?_, rfl⟩
    rw [generateAlarms, alarmsFrom_getElem _ 0 i, hm]
    simp

/-- C10 witness: a single meter with risk 90 produces, at position 0, an
alarm of severity `alert`; a meter with risk 30 would analogously get
`warning`, never `normal`. -/
theorem alarms_top20_severity_witness :
    (generateAlarms [⟨"m1", (0, 0), Status.alert, 90, 0, none, none, none⟩])[0]? =
      some (alarmOf 0 ⟨"m1", (0, 0), Status.alert, 90, 0, none, none, none⟩) ∧
    (alarmOf 0 ⟨"m1", (0, 0), Status.alert, 90, 0, none, none, none⟩).severity =
      (if 80 ≤ jsRiskOf ⟨"m1", (0, 0), Status.alert, 90, 0, none, none, none⟩
        then Status.alert else Status.warning) :=
  (alarms_top20_severity [⟨"m1", (0, 0), Status.alert, 90, 0, none, none, none⟩]).2
    0 ⟨"m1", (0, 0), Status.alert, 90, 0, none, none, none⟩ rfl

end WaterFlow
